import Mathlib

/-!
A shallow embedding of the FluxDB in-memory key-value server
(package `fluxdb`, file `config/config.go`): the key-value store
operations, the RESP wire codec (encoder and decoder) and the command
dispatcher `processCommand`.

Modelling conventions:
* a byte stream is a `List Char`, one character per byte;
* fallible parsing is `Except String`, mirroring the `(value, error)`
  pairs of the source (the exact text of the propagated I/O errors is
  abbreviated to "EOF"; the formatted protocol-error messages are kept);
* the two Go maps (`data` and `config`) are association lists, and the
  unspecified iteration order of a Go map is modelled as list order
  (no claim below depends on that order);
* `strconv.Atoi` is modelled without its bit-width overflow behaviour
  (every value in scope is small), and `strings.TrimSpace` /
  `strings.Fields` recognise the six ASCII whitespace characters;
* the reader/writer lock only serialises the operations; the
  sequential semantics of each operation is what is embedded.
-/

abbrev Bytes := List Char

def bs (s : String) : Bytes := s.toList

def crlf : Bytes := ['\r', '\n']

/-- ASCII whitespace, as recognised by `strings.TrimSpace` and
`strings.Fields` on ASCII input. -/
def isSpaceChar (c : Char) : Bool :=
  c.toNat = 32 ∨ c.toNat = 9 ∨ c.toNat = 10 ∨ c.toNat = 11 ∨ c.toNat = 12 ∨ c.toNat = 13

/-- A decimal digit byte, as accepted by `strconv.Atoi`. -/
def isDigitChar (c : Char) : Bool :=
  48 ≤ c.toNat ∧ c.toNat ≤ 57

/-- `strings.TrimSpace`. -/
def trimSpace (s : Bytes) : Bytes :=
  ((s.dropWhile isSpaceChar).reverse.dropWhile isSpaceChar).reverse

def fieldsAux : Bytes → Bytes → List Bytes
  | cur, [] => if cur = [] then [] else [cur.reverse]
  | cur, c :: rest =>
    if isSpaceChar c then
      if cur = [] then fieldsAux [] rest else cur.reverse :: fieldsAux [] rest
    else fieldsAux (c :: cur) rest

/-- `strings.Fields`: whitespace-separated words, no empty words. -/
def fields (s : Bytes) : List Bytes := fieldsAux [] s

def toUpperChar (c : Char) : Char :=
  if 97 ≤ c.toNat ∧ c.toNat ≤ 122 then Char.ofNat (c.toNat - 32) else c

/-- `strings.ToUpper` on ASCII input. -/
def toUpper (s : Bytes) : Bytes := s.map toUpperChar

/-- Value of a big-endian list of digit bytes (helper for `atoi`). -/
def digitsToNat (s : Bytes) : Nat :=
  s.foldl (fun a c => 10 * a + (c.toNat - 48)) 0

def parseDigits (s : Bytes) : Option Nat :=
  if s = [] then none
  else if s.all isDigitChar then some (digitsToNat s)
  else none

/-- `strconv.Atoi`: optional sign, then at least one digit and nothing
else (bit-width overflow ignored: every value in scope is small). -/
def atoi (s : Bytes) : Option Int :=
  match s with
  | [] => none
  | c :: rest =>
    if c = '+' then (parseDigits rest).map (fun n => (n : Int))
    else if c = '-' then (parseDigits rest).map (fun n => -(n : Int))
    else (parseDigits (c :: rest)).map (fun n => (n : Int))

/-- Fuel-driven decimal rendering helper: the digits of `n` for
`1 ≤ n ≤ fuel`. -/
def natReprAux : Nat → Nat → Bytes
  | 0, _ => []
  | _ + 1, 0 => []
  | fuel + 1, n + 1 => natReprAux fuel ((n + 1) / 10) ++ [Nat.digitChar ((n + 1) % 10)]

/-- Decimal rendering of a natural number, as produced by the `%d`
format verb for the non-negative values the server prints. -/
def natRepr (n : Nat) : Bytes :=
  if n = 0 then ['0'] else natReprAux n n

/-- `bufio.Reader.ReadString` with delimiter newline: the returned line
includes the delimiter; `none` when the stream ends first (every Go
caller discards the partial read when an error is returned). -/
def readLine : Bytes → Option (Bytes × Bytes)
  | [] => none
  | c :: rest =>
    if c = '\n' then some ([c], rest)
    else (readLine rest).map (fun p => (c :: p.1, p.2))

/-- `io.ReadFull`: exactly `n` bytes, or failure on a short stream. -/
def readFull (n : Nat) (s : Bytes) : Option (Bytes × Bytes) :=
  if n ≤ s.length then some (s.take n, s.drop n) else none

-- RESP encoders -------------------------------------------------------------

def writeString (s : Bytes) : Bytes := '+' :: (s ++ crlf)

def writeError (s : Bytes) : Bytes := '-' :: (s ++ crlf)

/-- `writeInteger`; its only caller passes the non-negative DEL count,
so the argument is a natural number. -/
def writeInteger (i : Nat) : Bytes := ':' :: (natRepr i ++ crlf)

def writeBulkString (s : Bytes) : Bytes :=
  '$' :: (natRepr s.length ++ crlf ++ s ++ crlf)

def writeArray (arr : List Bytes) : Bytes :=
  '*' :: (natRepr arr.length ++ crlf ++ (arr.map writeBulkString).flatten)

-- Key-value store -----------------------------------------------------------

structure FluxDB where
  data : List (Bytes × Bytes)
  config : List (Bytes × Bytes)
deriving DecidableEq

def lookupAssoc : List (Bytes × Bytes) → Bytes → Option Bytes
  | [], _ => none
  | p :: rest, k => if p.1 = k then some p.2 else lookupAssoc rest k

/-- Go map assignment `m[k] = v`. -/
def setAssoc : List (Bytes × Bytes) → Bytes → Bytes → List (Bytes × Bytes)
  | [], k, v => [(k, v)]
  | p :: rest, k, v => if p.1 = k then (k, v) :: rest else p :: setAssoc rest k v

/-- Go map removal `delete(m, k)`. -/
def eraseAssoc : List (Bytes × Bytes) → Bytes → List (Bytes × Bytes)
  | [], _ => []
  | p :: rest, k => if p.1 = k then eraseAssoc rest k else p :: eraseAssoc rest k

/-- `New`: empty data map, seeded config map. -/
def FluxDB.New : FluxDB :=
  ⟨[], [(bs ("port"), bs ("6379")), (bs ("bind"), bs ("0.0.0.0")),
        (bs ("max_clients"), bs ("10000")), (bs ("timeout"), bs ("0"))]⟩

/-- `Set`: refuses to overwrite an existing key, returning "false";
otherwise stores the pair and returns "OK". -/
def FluxDB.Set (f : FluxDB) (key value : Bytes) : Bytes × FluxDB :=
  match lookupAssoc f.data key with
  | some _ => (bs ("false"), f)
  | none => (bs ("OK"), ⟨setAssoc f.data key value, f.config⟩)

/-- `Get`: the stored value, or the sentinel string "nil" when absent. -/
def FluxDB.Get (f : FluxDB) (key : Bytes) : Bytes :=
  match lookupAssoc f.data key with
  | some v => v
  | none => bs ("nil")

/-- `Delete`: removes the key if present and returns "OK"
unconditionally. -/
def FluxDB.Delete (f : FluxDB) (key : Bytes) : Bytes × FluxDB :=
  (bs ("OK"), ⟨eraseAssoc f.data key, f.config⟩)

/-- `SetConfig`: unconditional upsert, returns "OK". -/
def FluxDB.SetConfig (f : FluxDB) (key value : Bytes) : Bytes × FluxDB :=
  (bs ("OK"), ⟨f.data, setAssoc f.config key value⟩)

/-- `GetConfig`: the stored value, or the sentinel "nil" when absent. -/
def FluxDB.GetConfig (f : FluxDB) (key : Bytes) : Bytes :=
  match lookupAssoc f.config key with
  | some v => v
  | none => bs ("nil")

-- RESP decoder --------------------------------------------------------------

/-- `parseBulkString`: reads and discards one byte (by its own contract
the bulk-string marker), then the decimal length line; a negative
length yields the empty token; otherwise reads `length + 2` bytes and
returns the first `length` of them, never checking the trailing two. -/
def parseBulkString (s : Bytes) : Except String (Bytes × Bytes) :=
  match s with
  | [] => .error ("EOF")
  | _ :: s1 =>
    match readLine s1 with
    | none => .error ("EOF")
    | some (line, s2) =>
      match atoi (trimSpace line) with
      | none => .error ("invalid bulk string length: " ++ String.mk (trimSpace line))
      | some len =>
        if len < 0 then .ok ([], s2)
        else
          match readFull (len.toNat + 2) s2 with
          | none => .error ("EOF")
          | some (buf, s3) => .ok (buf.take len.toNat, s3)

/-- The element loop of `parseArray`: each element must start with the
bulk-string marker; the `UnreadByte` of the source is modelled by
passing the peeked byte back to `parseBulkString`. -/
def parseArrayElems : Nat → Bytes → Except String (List Bytes × Bytes)
  | 0, s => .ok ([], s)
  | n + 1, s =>
    match s with
    | [] => .error ("EOF")
    | b :: rest =>
      if b = '$' then
        match parseBulkString (b :: rest) with
        | .error e => .error e
        | .ok (tok, s1) =>
          match parseArrayElems n s1 with
          | .error e => .error e
          | .ok (toks, s2) => .ok (tok :: toks, s2)
      else .error ("expected bulk string in array, got: " ++ String.singleton b)

/-- `parseArray`: decimal count line, then that many bulk strings.
The source returns `(nil, nil)` for a negative count (null array);
both a null and an empty array decode to no tokens, modelled as `[]`. -/
def parseArray (s : Bytes) : Except String (List Bytes × Bytes) :=
  match readLine s with
  | none => .error ("EOF")
  | some (line, s1) =>
    match atoi (trimSpace line) with
    | none => .error ("invalid array length: " ++ String.mk (trimSpace line))
    | some count =>
      if count < 0 then .ok ([], s1)
      else parseArrayElems count.toNat s1

/-- `parseRESP`: dispatch on the first byte.  In the bulk-string case
the source does not unread the consumed marker before calling
`parseBulkString`, which then consumes one further byte as if it were
the marker. -/
def parseRESP (s : Bytes) : Except String (List Bytes × Bytes) :=
  match s with
  | [] => .error ("EOF")
  | b :: rest =>
    if b = '*' then parseArray rest
    else if b = '$' then
      match parseBulkString rest with
      | .error e => .error e
      | .ok (tok, s1) => .ok ([tok], s1)
    else
      match readLine rest with
      | none => .error ("EOF")
      | some (line, s1) => .ok (fields (b :: trimSpace line), s1)

-- Command dispatcher --------------------------------------------------------

/-- The ASCII single quote used inside the error message text. -/
def quoteChar : Char := Char.ofNat 39

def wrongArgs (name : Bytes) : Bytes :=
  bs ("wrong number of arguments for ") ++ (quoteChar :: name) ++ (quoteChar :: bs (" command"))

/-- The DEL loop of `processCommand`: deletes each key, counting only
the iterations where `Delete` returned "true" (it never does). -/
def delLoop : FluxDB → List Bytes → Nat → FluxDB × Nat
  | r, [], count => (r, count)
  | r, k :: rest, count =>
    delLoop (r.Delete k).2 rest (if (r.Delete k).1 = bs ("true") then count + 1 else count)

def helpText : Bytes :=
  bs ("Available commands:\r\nPING - Test connection\r\nSET key value - Set a key value pair\r\nGET key - Get a key value pair\r\nDEL key - Delete a key value pair\r\nCONFIG GET/SET - View or modify configuration\r\nSELECT db - Select a logical database\r\nHELP - Show this help")

/-- The CONFIG GET result list: "*" flattens every config pair (list
order stands in for the unspecified Go map iteration order); an exact
name is paired with `GetConfig`'s result unless that result is the
empty string. -/
def configGetResult (r : FluxDB) (pat : Bytes) : List Bytes :=
  if pat = bs ("*") then
    (r.config.map (fun p => [p.1, p.2])).flatten
  else
    if r.GetConfig pat = [] then [] else [pat, r.GetConfig pat]

/-- `processCommand`: verb normalisation, arity checks, store calls and
reply framing; the returned bytes are everything written to the
connection during the dispatch. -/
def processCommand (r : FluxDB) (cmd : List Bytes) : FluxDB × Bytes :=
  match cmd with
  | [] => (r, [])
  | c0 :: args =>
    let command := toUpper c0
    if command = bs ("PING") then
      match args with
      | [] => (r, writeString (bs ("PONG")))
      | a :: _ => (r, writeBulkString a)
    else if command = bs ("SET") then
      match args with
      | a0 :: a1 :: _ => ((r.Set a0 a1).2, writeString (r.Set a0 a1).1)
      | _ => (r, writeError (wrongArgs (bs ("set"))))
    else if command = bs ("GET") then
      match args with
      | a0 :: _ => (r, writeBulkString (r.Get a0))
      | [] => (r, writeError (wrongArgs (bs ("get"))))
    else if command = bs ("DEL") then
      match args with
      | [] => (r, writeError (wrongArgs (bs ("del"))))
      | _ => ((delLoop r args 0).1, writeInteger (delLoop r args 0).2)
    else if command = bs ("HELP") then
      (r, writeBulkString helpText)
    else if command = bs ("SELECT") then
      match args with
      | [] => (r, writeError (wrongArgs (bs ("select"))))
      | _ => (r, writeString (bs ("OK")))
    else if command = bs ("CONFIG") then
      match args with
      | [] => (r, writeError (wrongArgs (bs ("config"))))
      | sub :: rest =>
        let subcommand := toUpper sub
        if subcommand = bs ("GET") then
          match rest with
          | [] => (r, writeError (wrongArgs (bs ("config get"))))
          | p0 :: _ => (r, writeArray (configGetResult r p0))
        else if subcommand = bs ("SET") then
          match rest with
          | a1 :: a2 :: _ => ((r.SetConfig a1 a2).2, writeString (r.SetConfig a1 a2).1)
          | _ => (r, writeError (wrongArgs (bs ("config set"))))
        else (r, writeError (bs ("unsupported config operation")))
    else (r, writeError (bs ("unknown command ") ++ (quoteChar :: command) ++ [quoteChar]))

-- Decimal round-trip lemmas -------------------------------------------------

theorem digitChar_toNat (d : Nat) (h : d < 10) : (Nat.digitChar d).toNat - 48 = d := by
  interval_cases d <;> rfl

theorem digitChar_isDigit (d : Nat) (h : d < 10) : isDigitChar (Nat.digitChar d) = true := by
  interval_cases d <;> rfl

theorem digit_not_space (c : Char) (h : isDigitChar c = true) : isSpaceChar c = false := by
  simp only [isDigitChar, decide_eq_true_eq] at h
  simp only [isSpaceChar, decide_eq_false_iff_not]
  omega

theorem digitsToNat_append (l : Bytes) (c : Char) :
    digitsToNat (l ++ [c]) = 10 * digitsToNat l + (c.toNat - 48) := by
  simp [digitsToNat, List.foldl_append]

theorem natReprAux_all (fuel : Nat) : ∀ n, n ≤ fuel → (natReprAux fuel n).all isDigitChar = true := by
  induction fuel with
  | zero => intro n h; interval_cases n; rfl
  | succ fuel ih =>
    intro n h
    cases n with
    | zero => rfl
    | succ m =>
      have hdiv : (m + 1) / 10 ≤ fuel := by
        have := Nat.div_lt_self (Nat.succ_pos m) (by norm_num : 1 < 10)
        omega
      have hmod : (m + 1) % 10 < 10 := Nat.mod_lt _ (by norm_num)
      simp only [natReprAux, List.all_append, List.all_cons, List.all_nil,
        Bool.and_true, Bool.and_eq_true]
      exact ⟨ih _ hdiv, digitChar_isDigit _ hmod⟩

theorem natReprAux_val (fuel : Nat) : ∀ n, n ≤ fuel → digitsToNat (natReprAux fuel n) = n := by
  induction fuel with
  | zero => intro n h; interval_cases n; rfl
  | succ fuel ih =>
    intro n h
    cases n with
    | zero => rfl
    | succ m =>
      have hdiv : (m + 1) / 10 ≤ fuel := by
        have := Nat.div_lt_self (Nat.succ_pos m) (by norm_num : 1 < 10)
        omega
      have hmod : (m + 1) % 10 < 10 := Nat.mod_lt _ (by norm_num)
      simp only [natReprAux, digitsToNat_append, ih _ hdiv, digitChar_toNat _ hmod]
      omega

theorem natRepr_ne_nil (n : Nat) : natRepr n ≠ [] := by
  by_cases h : n = 0
  · subst h; simp [natRepr]
  · obtain ⟨m, rfl⟩ := Nat.exists_eq_succ_of_ne_zero h
    simp [natRepr, natReprAux]

theorem natRepr_all (n : Nat) : (natRepr n).all isDigitChar = true := by
  by_cases h : n = 0
  · subst h; rfl
  · simp only [natRepr, if_neg h]
    exact natReprAux_all n n le_rfl

theorem natRepr_val (n : Nat) : digitsToNat (natRepr n) = n := by
  by_cases h : n = 0
  · subst h; rfl
  · simp only [natRepr, if_neg h]
    exact natReprAux_val n n le_rfl

theorem parseDigits_natRepr (n : Nat) : parseDigits (natRepr n) = some n := by
  unfold parseDigits
  rw [if_neg (natRepr_ne_nil n), if_pos (natRepr_all n), natRepr_val]

theorem atoi_natRepr (n : Nat) : atoi (natRepr n) = some (n : Int) := by
  obtain ⟨c, rest, hc⟩ : ∃ c rest, natRepr n = c :: rest := by
    cases hh : natRepr n with
    | nil => exact absurd hh (natRepr_ne_nil n)
    | cons c rest => exact ⟨c, rest, rfl⟩
  have hd : isDigitChar c = true := by
    have hall := natRepr_all n
    rw [hc, List.all_cons, Bool.and_eq_true] at hall
    exact hall.1
  have h1 : ¬ c = '+' := by
    intro hcc; subst hcc; exact absurd hd (by decide)
  have h2 : ¬ c = '-' := by
    intro hcc; subst hcc; exact absurd hd (by decide)
  rw [hc]
  simp only [atoi, if_neg h1, if_neg h2]
  rw [← hc, parseDigits_natRepr]
  rfl

theorem natRepr_no_newline (n : Nat) : '\n' ∉ natRepr n := by
  intro hm
  have hall := natRepr_all n
  rw [List.all_eq_true] at hall
  exact absurd (hall _ hm) (by decide)

-- Stream helper lemmas ------------------------------------------------------

theorem readLine_append (m rest : Bytes) (h : '\n' ∉ m) :
    readLine (m ++ '\n' :: rest) = some (m ++ ['\n'], rest) := by
  induction m with
  | nil => rfl
  | cons c m ih =>
    have hc : ¬ c = '\n' := fun hcc => h (by rw [hcc]; exact List.mem_cons_self _ _)
    have hm : '\n' ∉ m := fun hmm => h (List.mem_cons_of_mem c hmm)
    simp only [List.cons_append, readLine, if_neg hc, List.append_eq, ih hm]
    rfl

theorem readLine_crlf (m rest : Bytes) (h : '\n' ∉ m) :
    readLine (m ++ '\r' :: '\n' :: rest) = some (m ++ ['\r', '\n'], rest) := by
  have h2 : '\n' ∉ m ++ ['\r'] := by
    intro hm
    rcases List.mem_append.mp hm with h1 | h1
    · exact h h1
    · exact absurd h1 (by decide)
  have hr := readLine_append (m ++ ['\r']) rest h2
  simpa [List.append_assoc] using hr

theorem dropWhile_eq_self_of_all (p : Char → Bool) (l : Bytes) (h : ∀ c ∈ l, p c = false) :
    l.dropWhile p = l := by
  cases l with
  | nil => rfl
  | cons c rest =>
    have hc : ¬ p c = true := by simp [h c (List.mem_cons_self c rest)]
    rw [List.dropWhile_cons, if_neg hc]

theorem trimSpace_append_crlf (m : Bytes) (hne : m ≠ []) (h : ∀ c ∈ m, isSpaceChar c = false) :
    trimSpace (m ++ ['\r', '\n']) = m := by
  unfold trimSpace
  have h1 : (m ++ ['\r', '\n']).dropWhile isSpaceChar = m ++ ['\r', '\n'] := by
    cases m with
    | nil => exact absurd rfl hne
    | cons c rest =>
      have hc : ¬ isSpaceChar c = true := by simp [h c (List.mem_cons_self c rest)]
      rw [List.cons_append, List.dropWhile_cons, if_neg hc]
  have h2 : (['\r', '\n'] : Bytes).reverse = ['\n', '\r'] := rfl
  have h3 : List.dropWhile isSpaceChar ('\n' :: '\r' :: m.reverse)
      = m.reverse.dropWhile isSpaceChar := by
    rw [List.dropWhile_cons, if_pos (by decide), List.dropWhile_cons, if_pos (by decide)]
  have h4 : m.reverse.dropWhile isSpaceChar = m.reverse :=
    dropWhile_eq_self_of_all _ _ (fun c hc => h c (List.mem_reverse.mp hc))
  rw [h1, List.reverse_append, h2]
  show (List.dropWhile isSpaceChar ('\n' :: '\r' :: m.reverse)).reverse = m
  rw [h3, h4, List.reverse_reverse]

theorem take_append_add (t l : Bytes) (k : Nat) :
    (t ++ l).take (t.length + k) = t ++ l.take k := by
  induction t with
  | nil => simp
  | cons c t ih =>
    simp only [List.cons_append, List.length_cons]
    rw [Nat.add_right_comm t.length 1 k, List.take_succ_cons, ih]

theorem drop_append_add (t l : Bytes) (k : Nat) :
    (t ++ l).drop (t.length + k) = l.drop k := by
  induction t with
  | nil => simp
  | cons c t ih =>
    simp only [List.cons_append, List.length_cons]
    rw [Nat.add_right_comm t.length 1 k, List.drop_succ_cons, ih]

theorem take_append_len (t l : Bytes) : (t ++ l).take t.length = t := by
  induction t with
  | nil => rfl
  | cons c t ih => simp only [List.cons_append, List.length_cons, List.take_succ_cons, ih]

-- Decoder correctness on encoded frames -------------------------------------

theorem natRepr_not_space (n : Nat) : ∀ c ∈ natRepr n, isSpaceChar c = false := by
  intro c hc
  have hall := natRepr_all n
  rw [List.all_eq_true] at hall
  exact digit_not_space c (hall _ hc)

theorem trimSpace_natRepr_crlf (n : Nat) :
    trimSpace (natRepr n ++ ['\r', '\n']) = natRepr n :=
  trimSpace_append_crlf _ (natRepr_ne_nil n) (natRepr_not_space n)

/-- `parseBulkString` on an encoded length line and body consumes
exactly `length + 2` bytes after the line and returns the body,
whatever the two trailing bytes are. -/
theorem parseBulkString_encode (t rest : Bytes) (c1 c2 : Char) :
    parseBulkString ('$' :: (natRepr t.length ++ '\r' :: '\n' :: (t ++ c1 :: c2 :: rest)))
      = .ok (t, rest) := by
  have hfull : readFull (((t.length : Int)).toNat + 2) (t ++ c1 :: c2 :: rest)
      = some (t ++ [c1, c2], rest) := by
    have htn : ((t.length : Int)).toNat = t.length := by omega
    have hlen : t.length + 2 ≤ (t ++ c1 :: c2 :: rest).length := by
      simp [List.length_append]
    have htake : (t ++ c1 :: c2 :: rest).take (t.length + 2) = t ++ [c1, c2] := by
      rw [take_append_add]; rfl
    have hdrop : (t ++ c1 :: c2 :: rest).drop (t.length + 2) = rest := by
      rw [drop_append_add]; rfl
    rw [htn]
    unfold readFull
    rw [if_pos hlen, htake, hdrop]
  have hneg : ¬ ((t.length : Int) < 0) := by omega
  simp only [parseBulkString, readLine_crlf _ _ (natRepr_no_newline t.length),
    trimSpace_natRepr_crlf, atoi_natRepr, if_neg hneg, hfull]
  have htn : ((t.length : Int)).toNat = t.length := by omega
  rw [htn, take_append_len]

/-- The array-element loop decodes a concatenation of encoded bulk
strings back to the original tokens, leaving the rest of the stream. -/
theorem parseArrayElems_encode (toks : List Bytes) :
    ∀ rest, parseArrayElems toks.length ((toks.map writeBulkString).flatten ++ rest)
      = .ok (toks, rest) := by
  induction toks with
  | nil => intro rest; rfl
  | cons t toks ih =>
    intro rest
    have hstream : (((t :: toks).map writeBulkString).flatten ++ rest)
        = '$' :: (natRepr t.length ++ '\r' :: '\n'
            :: (t ++ '\r' :: '\n' :: ((toks.map writeBulkString).flatten ++ rest))) := by
      simp [writeBulkString, crlf, List.append_assoc]
    rw [hstream]
    simp only [List.length_cons, parseArrayElems, if_pos rfl,
      parseBulkString_encode t ((toks.map writeBulkString).flatten ++ rest) '\r' '\n', ih rest,
      if_true]

deriving instance DecidableEq for Except

-- Dispatcher equation lemmas ------------------------------------------------

theorem processCommand_SET_eq (r : FluxDB) (a0 a1 : Bytes) (rest : List Bytes) :
    processCommand r (bs ("SET") :: a0 :: a1 :: rest)
      = ((r.Set a0 a1).2, writeString (r.Set a0 a1).1) := rfl

theorem processCommand_GET_eq (r : FluxDB) (a0 : Bytes) (rest : List Bytes) :
    processCommand r (bs ("GET") :: a0 :: rest) = (r, writeBulkString (r.Get a0)) := rfl

theorem lookupAssoc_setAssoc (m : List (Bytes × Bytes)) (k v : Bytes) :
    lookupAssoc (setAssoc m k v) k = some v := by
  induction m with
  | nil => simp [setAssoc, lookupAssoc]
  | cons p rest ih =>
    by_cases h : p.1 = k
    · simp [setAssoc, h, lookupAssoc]
    · simp [setAssoc, h, lookupAssoc, ih]

-- Claims --------------------------------------------------------------------

/-- C1 (counterexample): when the key is already bound, SET followed by
GET does not reply with the new value: with k bound to "old", SET k
"new" leaves the binding and the GET reply is not the bulk string
"new". -/
theorem C1_set_get_counterexample :
    ¬ ((processCommand (processCommand ⟨[(bs ("k"), bs ("old"))], []⟩
          [bs ("SET"), bs ("k"), bs ("new")]).1 [bs ("GET"), bs ("k")]).2
        = writeBulkString (bs ("new"))) := by decide

/-- C1 (amended): for every store state, key k and value v with k not
already bound, dispatching SET k v and then GET k replies to the GET
with the bulk-string value v. -/
theorem C1_set_get_amended (db : FluxDB) (k v : Bytes) (h : lookupAssoc db.data k = none) :
    (processCommand (processCommand db [bs ("SET"), k, v]).1 [bs ("GET"), k]).2
      = writeBulkString v := by
  have hset : processCommand db [bs ("SET"), k, v]
      = (⟨setAssoc db.data k v, db.config⟩, writeString (bs ("OK"))) := by
    rw [processCommand_SET_eq]
    simp only [FluxDB.Set, h]
  rw [hset, processCommand_GET_eq]
  simp only [FluxDB.Get, lookupAssoc_setAssoc]

/-- C1 (witness): the amended statement at a concrete unbound key. -/
theorem C1_set_get_amended_witness :
    lookupAssoc (FluxDB.mk [] []).data (bs ("k")) = none ∧
    (processCommand (processCommand ⟨[], []⟩ [bs ("SET"), bs ("k"), bs ("v")]).1
        [bs ("GET"), bs ("k")]).2 = writeBulkString (bs ("v")) :=
  ⟨by decide, C1_set_get_amended ⟨[], []⟩ (bs ("k")) (bs ("v")) (by decide)⟩

/-- C2 (code bug): DEL of a single present key removes it but replies
with the integer frame `:0`, not `:1`: `Delete` returns "OK" while the
dispatcher only counts iterations returning "true". -/
theorem C2_del_count_bug :
    processCommand ⟨[(bs ("foo"), bs ("bar"))], []⟩ [bs ("DEL"), bs ("foo")]
      = (⟨[], []⟩, writeInteger 0) ∧
    ¬ (processCommand ⟨[(bs ("foo"), bs ("bar"))], []⟩ [bs ("DEL"), bs ("foo")]).2
        = writeInteger 1 := by decide

/-- C3 (counterexample): GET of an absent key does not reply with the
null bulk string `$-1\r\n`. -/
theorem C3_get_missing_counterexample :
    ¬ ((processCommand ⟨[], []⟩ [bs ("GET"), bs ("foo")]).2 = bs ("$-1\r\n")) := by decide

/-- C3 (amended): for every key absent from the key-value store,
dispatching GET replies with the three-byte bulk string "nil",
`$3\r\nnil\r\n` — never an error frame. -/
theorem C3_get_missing_amended (db : FluxDB) (k : Bytes) (h : lookupAssoc db.data k = none) :
    (processCommand db [bs ("GET"), k]).2 = bs ("$3\r\nnil\r\n") := by
  rw [processCommand_GET_eq]
  simp only [FluxDB.Get, h]
  rfl

/-- C3 (witness): the amended statement on the empty store. -/
theorem C3_get_missing_amended_witness :
    lookupAssoc (FluxDB.mk [] []).data (bs ("foo")) = none ∧
    (processCommand ⟨[], []⟩ [bs ("GET"), bs ("foo")]).2 = bs ("$3\r\nnil\r\n") :=
  ⟨by decide, C3_get_missing_amended ⟨[], []⟩ (bs ("foo")) (by decide)⟩

/-- C4 (code bug): CONFIG GET of an unset name replies with the
one-pair array (name, "nil") instead of the empty array: `GetConfig`
returns the sentinel "nil" for an absent name, which passes the
dispatcher's emptiness guard. -/
theorem C4_config_get_unset_bug :
    (processCommand ⟨[], []⟩ [bs ("CONFIG"), bs ("GET"), bs ("nosuch")]).2
      = bs ("*2\r\n$6\r\nnosuch\r\n$3\r\nnil\r\n") ∧
    ¬ ((processCommand ⟨[], []⟩ [bs ("CONFIG"), bs ("GET"), bs ("nosuch")]).2
        = writeArray []) := by decide

/-- C5 (code bug): a well-formed top-level bulk-string frame fails to
decode: `parseRESP` consumes the marker byte without unreading it, so
`parseBulkString` consumes the first digit of the length as if it were
the marker and the remaining length line is empty, a parse error. -/
theorem C5_top_level_bulk_bug :
    parseRESP (bs ("$3\r\nfoo\r\n")) = .error ("invalid bulk string length: ") ∧
    ¬ (parseRESP (bs ("$3\r\nfoo\r\n")) = .ok ([bs ("foo")], [])) := by decide

/-- C6 (counterexample): SET dispatched with three arguments — one more
than its declared arity — is not answered with an error frame and does
mutate the key-value store. -/
theorem C6_arity_counterexample :
    processCommand ⟨[], []⟩ [bs ("SET"), bs ("a"), bs ("b"), bs ("c")]
      = (⟨[(bs ("a"), bs ("b"))], []⟩, writeString (bs ("OK"))) := by decide

/-- C6 (amended): for every verb with a required minimum argument
count, an argument list shorter than that minimum yields an error
frame naming the offending command and leaves both stores unchanged;
argument lists longer than the declared arity are accepted. -/
theorem C6_arity_amended (db : FluxDB) (a : Bytes) :
    processCommand db [bs ("SET")] = (db, writeError (wrongArgs (bs ("set")))) ∧
    processCommand db [bs ("SET"), a] = (db, writeError (wrongArgs (bs ("set")))) ∧
    processCommand db [bs ("GET")] = (db, writeError (wrongArgs (bs ("get")))) ∧
    processCommand db [bs ("DEL")] = (db, writeError (wrongArgs (bs ("del")))) ∧
    processCommand db [bs ("SELECT")] = (db, writeError (wrongArgs (bs ("select")))) ∧
    processCommand db [bs ("CONFIG")] = (db, writeError (wrongArgs (bs ("config")))) ∧
    processCommand db [bs ("CONFIG"), bs ("GET")]
      = (db, writeError (wrongArgs (bs ("config get")))) ∧
    processCommand db [bs ("CONFIG"), bs ("SET")]
      = (db, writeError (wrongArgs (bs ("config set")))) ∧
    processCommand db [bs ("CONFIG"), bs ("SET"), a]
      = (db, writeError (wrongArgs (bs ("config set")))) :=
  ⟨rfl, rfl, rfl, rfl, rfl, rfl, rfl, rfl, rfl⟩

/-- C7: encoding any finite token list as an array frame of bulk
strings and decoding it back with the decoder reproduces the original
token sequence exactly, including tokens containing CR or LF bytes. -/
theorem C7_array_round_trip (tokens : List Bytes) :
    parseRESP (writeArray tokens) = .ok (tokens, []) := by
  have hstream : writeArray tokens
      = '*' :: (natRepr tokens.length ++ '\r' :: '\n' :: (tokens.map writeBulkString).flatten) := by
    simp [writeArray, crlf, List.append_assoc]
  have hneg : ¬ ((tokens.length : Int) < 0) := by omega
  have htn : ((tokens.length : Int)).toNat = tokens.length := by omega
  have hjoin : (tokens.map writeBulkString).flatten
      = (tokens.map writeBulkString).flatten ++ [] := by simp
  rw [hstream]
  simp only [parseRESP, if_pos rfl, if_true, parseArray,
    readLine_crlf _ _ (natRepr_no_newline tokens.length),
    trimSpace_natRepr_crlf, atoi_natRepr, if_neg hneg, htn]
  rw [hjoin, parseArrayElems_encode]

/-- C8 (code bug): a non-numeric length line after a top-level `$` need
not produce an error: on `$x5` followed by seven bytes the decoder
consumes the marker twice, misreads the length line as "5" and
succeeds with a token the claim says should be rejected. -/
theorem C8_nonnumeric_length_bug :
    atoi (trimSpace (bs ("x5"))) = none ∧
    parseRESP (bs ("$x5\r\n1234567")) = .ok ([bs ("12345")], []) := by decide

/-- C9: when key k is bound to the three-byte value "nil", the GET
reply is byte-for-byte the reply for an absent key: `$3\r\nnil\r\n` in
both cases. -/
theorem C9_nil_indistinguishable (db1 db2 : FluxDB) (k : Bytes)
    (h1 : lookupAssoc db1.data k = some (bs ("nil")))
    (h2 : lookupAssoc db2.data k = none) :
    (processCommand db1 [bs ("GET"), k]).2 = (processCommand db2 [bs ("GET"), k]).2 ∧
    (processCommand db1 [bs ("GET"), k]).2 = bs ("$3\r\nnil\r\n") := by
  rw [processCommand_GET_eq, processCommand_GET_eq]
  simp only [FluxDB.Get, h1, h2]
  exact ⟨trivial, rfl⟩

/-- C9 (witness): concrete stores with k bound to "nil" and k absent. -/
theorem C9_nil_indistinguishable_witness :
    lookupAssoc (FluxDB.mk [(bs ("k"), bs ("nil"))] []).data (bs ("k")) = some (bs ("nil")) ∧
    lookupAssoc (FluxDB.mk [] []).data (bs ("k")) = none ∧
    ((processCommand ⟨[(bs ("k"), bs ("nil"))], []⟩ [bs ("GET"), bs ("k")]).2
        = (processCommand ⟨[], []⟩ [bs ("GET"), bs ("k")]).2 ∧
      (processCommand ⟨[(bs ("k"), bs ("nil"))], []⟩ [bs ("GET"), bs ("k")]).2
        = bs ("$3\r\nnil\r\n")) :=
  ⟨by decide, by decide,
    C9_nil_indistinguishable ⟨[(bs ("k"), bs ("nil"))], []⟩ ⟨[], []⟩ (bs ("k"))
      (by decide) (by decide)⟩

/-- C10: a bulk-string element with declared length n consumes exactly
n + 2 bytes after the length line, returning the first n as the token;
the final two bytes are discarded without inspection — any two bytes
are accepted, not only CRLF. -/
theorem C10_bulk_trailing_bytes (t rest : Bytes) (c1 c2 : Char) :
    parseBulkString ('$' :: (natRepr t.length ++ '\r' :: '\n' :: (t ++ c1 :: c2 :: rest)))
      = .ok (t, rest) :=
  parseBulkString_encode t rest c1 c2
